import Mathlib

/-!
Verification development for the `postgres_to_rust` schema generator
(`src/main.rs`).  The program introspects a PostgreSQL schema and emits Rust
struct definitions, optionally routing selected tables to dedicated files and
collecting the rest, together with module declarations, into one aggregate
output file.

The embedding below translates, from the source:
* the database-type-to-Rust-type `match` (main.rs lines 289-328) and the
  nullability `Option` wrapping (lines 331-335);
* the identifier conversions (`convert_case`'s `to_case(Case::Snake)` /
  `to_case(Case::Pascal)` with the crate's default word boundaries) and
  `syn::Ident::new` (= `proc_macro2::Ident::new`), whose panic on a
  lexically invalid identifier is modelled as `none`;
* the per-run file-system effects: the upfront deletion of configured route
  files (lines 224-236), the per-table routing / append writes and module
  registration (lines 348-406), the aggregate-file write (lines 408-426) and
  the whitespace-normalisation / formatter pass (lines 428-451).

The file system is modelled as an association list from paths to file
contents; a missing key is a missing file.  The external `rustfmt` binary is
modelled as an arbitrary total function `fmt : String → String` applied to a
file's contents.  Strings are treated as their ASCII character sequences,
which covers PostgreSQL identifiers and all inputs used in the theorems.
-/

/-! ### Character classes and case conversion (`convert_case` crate) -/

/-- ASCII lowercase letter test. -/
def isLow (c : Char) : Bool := 'a' ≤ c && c ≤ 'z'

/-- ASCII uppercase letter test. -/
def isUp (c : Char) : Bool := 'A' ≤ c && c ≤ 'Z'

/-- ASCII digit test. -/
def isDig (c : Char) : Bool := '0' ≤ c && c ≤ '9'

/-- Lowercase an ASCII letter, leave other characters unchanged. -/
def lowChar (c : Char) : Char := if isUp c then Char.ofNat (c.toNat + 32) else c

/-- Uppercase an ASCII letter, leave other characters unchanged. -/
def upChar (c : Char) : Char := if isLow c then Char.ofNat (c.toNat - 32) else c

/-- Delimiter boundaries of `convert_case`: underscore, hyphen, space.  The
delimiter character is consumed and separates two words. -/
def isDelim (c : Char) : Bool := c == '_' || c == '-' || c == ' '

/-- Non-delimiter word boundaries of `convert_case` with the crate's default
boundary set: lower-to-upper, the four letter/digit transitions, and the
acronym boundary (upper, upper, then lower).  `a` is the current character,
`b` the next one and `n` the one after that. -/
def splitBoundary (a b : Char) (n : Option Char) : Bool :=
  (isLow a && isUp b) || (isUp a && isDig b) || (isDig a && isUp b) ||
  (isDig a && isLow b) || (isLow a && isDig b) ||
  (isUp a && isUp b && (match n with | some c => isLow c | none => false))

/-- Word splitter of `convert_case`: walks the character list, cutting at
delimiters (dropped) and at `splitBoundary` positions (kept).  `cur` is the
current word accumulated in reverse. -/
def splitGo : List Char → List Char → List (List Char)
  | [], cur => if cur.isEmpty then [] else [cur.reverse]
  | c :: rest, cur =>
    if isDelim c then
      (if cur.isEmpty then [] else [cur.reverse]) ++ splitGo rest []
    else
      match rest with
      | [] => [(c :: cur).reverse]
      | b :: rest2 =>
        if splitBoundary c b rest2.head? then
          (c :: cur).reverse :: splitGo rest []
        else
          splitGo rest (c :: cur)

/-- Split a string into its case words. -/
def splitWords (s : String) : List (List Char) := splitGo s.data []

/-- Capitalisation pattern of `Case::Pascal`: first character uppercased,
remaining characters lowercased. -/
def capWord : List Char → List Char
  | [] => []
  | c :: cs => upChar c :: cs.map lowChar

/-- `to_case(Case::Pascal)` of the `convert_case` crate: capitalise every
word and concatenate. -/
def toPascal (s : String) : String := ⟨((splitWords s).map capWord).flatten⟩

/-- `to_case(Case::Snake)` of the `convert_case` crate: lowercase every word
and join with underscores. -/
def toSnake (s : String) : String :=
  ⟨List.intercalate ['_'] ((splitWords s).map (List.map lowChar))⟩

/-! ### Identifier construction (`syn::Ident::new`) -/

/-- Valid first character of a Rust identifier (ASCII fragment). -/
def isIdentStart (c : Char) : Bool := isLow c || isUp c || c == '_'

/-- Valid continuation character of a Rust identifier (ASCII fragment). -/
def isIdentCont (c : Char) : Bool := isIdentStart c || isDig c

/-- Model of `syn::Ident::new` (i.e. `proc_macro2::Ident::new`): returns the
string itself when it is a lexically valid identifier — keywords included —
and `none` where the library call panics (empty string, leading digit, or a
character that is not permitted in an identifier). -/
def mkIdent (s : String) : Option String :=
  match s.data with
  | [] => none
  | c :: cs => if isIdentStart c && cs.all isIdentCont then some s else none

/-- Column-name conversion as performed per column in `main.rs`
(lines 337-340): snake-case the introspected name, then build an `Ident`. -/
def colIdent (name : String) : Option String := mkIdent (toSnake name)

/-- Rust's strict keywords (lowercase), the reserved words of the target
language in the sense of the specification. -/
def rustKeywords : List String :=
  ["as", "async", "await", "break", "const", "continue", "crate", "dyn",
   "else", "enum", "extern", "false", "fn", "for", "if", "impl", "in",
   "let", "loop", "match", "mod", "move", "mut", "pub", "ref", "return",
   "self", "static", "struct", "super", "trait", "true", "type", "unsafe",
   "use", "where", "while"]

/-! ### The type mapper (`match data_type` in `main.rs`, lines 289-328) -/

/-- Target Rust types produced by the generator. -/
inductive RustType where
  | i64 | i8 | bool | string | vecU8 | naiveDate | f64 | i32
  | jsonValue | f32 | i16 | uuid
  | option (t : RustType)
deriving DecidableEq, Repr

/-- Translation of the `match data_type.as_str()` expression: every arm of
the Rust `match`, in source order, with the wildcard arm mapping to
`String`.  `useUuid` is the `--uuid` flag consulted in the `"uuid"` arm. -/
def rustType (dataType : String) (useUuid : Bool) : RustType :=
  if dataType = "bigint" then .i64
  else if dataType = "bigserial" then .i64
  else if dataType = "bit" then .i8
  else if dataType = "bit varying" then .i8
  else if dataType = "boolean" then .bool
  else if dataType = "box" then .string
  else if dataType = "bytea" then .vecU8
  else if dataType = "character" then .string
  else if dataType = "character varying" then .string
  else if dataType = "cidr" then .string
  else if dataType = "circle" then .string
  else if dataType = "date" then .naiveDate
  else if dataType = "double precision" then .f64
  else if dataType = "inet" then .string
  else if dataType = "integer" then .i32
  else if dataType = "interval" then .string
  else if dataType = "json" then .jsonValue
  else if dataType = "jsonb" then .jsonValue
  else if dataType = "line" then .string
  else if dataType = "lseg" then .string
  else if dataType = "macaddr" then .string
  else if dataType = "money" then .string
  else if dataType = "numeric" then .f64
  else if dataType = "path" then .string
  else if dataType = "pg_lsn" then .string
  else if dataType = "point" then .string
  else if dataType = "polygon" then .string
  else if dataType = "real" then .f32
  else if dataType = "smallint" then .i16
  else if dataType = "smallserial" then .i16
  else if dataType = "serial" then .i32
  else if dataType = "text" then .string
  else if dataType = "timestampz" then .string
  else if dataType = "uuid" then (if useUuid then .uuid else .string)
  else .string

/-- The database type names carrying an explicit arm in the `match`
(everything except the wildcard), in source order. -/
def explicitDbTypes : List String :=
  ["bigint", "bigserial", "bit", "bit varying", "boolean", "box", "bytea",
   "character", "character varying", "cidr", "circle", "date",
   "double precision", "inet", "integer", "interval", "json", "jsonb",
   "line", "lseg", "macaddr", "money", "numeric", "path", "pg_lsn",
   "point", "polygon", "real", "smallint", "smallserial", "serial",
   "text", "timestampz", "uuid"]

/-- Nullability wrapping (`main.rs` lines 331-335): when the introspected
`is_nullable` string equals `"YES"` the mapped type is wrapped in `Option`. -/
def fieldType (dataType isNullable : String) (useUuid : Bool) : RustType :=
  if isNullable = "YES" then .option (rustType dataType useUuid)
  else rustType dataType useUuid

/-- Recogniser for the `Option`-wrapped form. -/
def isOpt : RustType → Bool
  | .option _ => true
  | _ => false

/-! ### Introspected schema data -/

/-- One row of the `information_schema.columns` query as consumed by the
loop (`main.rs` lines 283-286): name, data type and the `is_nullable`
string.  The query also fetches `column_default`, which the program never
reads, so it is omitted. -/
structure Column where
  name : String
  dataType : String
  isNullable : String
deriving DecidableEq, Repr

/-- One introspected table: its name and its columns in the order the
database reported them. -/
structure Table where
  name : String
  columns : List Column
deriving DecidableEq, Repr

/-! ### Token rendering (`quote!` / `proc_macro2` display) -/

/-- Textual form of a target type as `proc_macro2`'s token display prints
it (tokens separated by spaces, hence `Vec < u8 >` and `chrono ::
NaiveDate`). -/
def renderType : RustType → String
  | .i64 => "i64"
  | .i8 => "i8"
  | .bool => "bool"
  | .string => "String"
  | .vecU8 => "Vec < u8 >"
  | .naiveDate => "chrono :: NaiveDate"
  | .f64 => "f64"
  | .i32 => "i32"
  | .jsonValue => "serde_json :: Value"
  | .f32 => "f32"
  | .i16 => "i16"
  | .uuid => "uuid :: Uuid"
  | .option t => "Option < " ++ renderType t ++ " >"

/-- One struct field as pushed onto `fields` (`main.rs` lines 343-345):
`pub <ident> : <type> ,`.  Fails (`none`) where `Ident::new` panics. -/
def emitField (useUuid : Bool) (col : Column) : Option String :=
  (colIdent col.name).map
    (fun idn => "pub " ++ idn ++ " : " ++
      renderType (fieldType col.dataType col.isNullable useUuid) ++ " ,")

/-- The struct-name `Ident` (`main.rs` lines 349-351): Pascal-case the table
name, then build an `Ident`; `none` where `Ident::new` panics. -/
def structName (t : Table) : Option String := mkIdent (toPascal t.name)

/-- Display form of the `quote!` struct definition (`main.rs` lines
354-359): derive attribute, struct header and the fields in column order. -/
def renderStruct (name : String) (fields : List String) : String :=
  "# [derive (Debug , Clone , PartialEq , Eq , serde :: Serialize , serde :: Deserialize)] pub struct "
    ++ name ++ " \x7b " ++ String.join (fields.map (fun f => f ++ " ")) ++ "\x7d"

/-- The full generated record for one table, `none` if any identifier
construction panics.  The columns are processed before the struct name,
as in the source. -/
def emitStruct (useUuid : Bool) (t : Table) : Option String := do
  let fields ← t.columns.mapM (emitField useUuid)
  let sn ← structName t
  pure (renderStruct sn fields)

/-! ### File-system model and string replacement -/

/-- A file system: association list from path to file contents.  A path
without an entry is a file that does not exist. -/
abbrev FS := List (String × String)

/-- Delete a file (no-op when absent). -/
def fsDelete (fs : FS) (p : String) : FS := fs.filter (fun e => e.1 != p)

/-- Create or truncate-and-write a file. -/
def fsWrite (fs : FS) (p c : String) : FS := (p, c) :: fsDelete fs p

/-- Replacement loop over characters: replaces every non-overlapping
occurrence of `pat`, left to right.  `fuel` bounds the recursion and is
chosen large enough by the wrapper. -/
def replGo (pat rep : List Char) : Nat → List Char → List Char
  | 0, l => l
  | Nat.succ fuel, l =>
    match l with
    | [] => []
    | c :: cs =>
      if pat.isPrefixOf l then rep ++ replGo pat rep fuel (l.drop pat.length)
      else c :: replGo pat rep fuel cs

/-- Model of Rust's `str::replace`: replace every occurrence of `pat` by
`rep`.  (The program only ever calls it with non-empty patterns.) -/
def replaceAll (s pat rep : String) : String :=
  if pat.data.isEmpty then s else ⟨replGo pat.data rep.data s.data.length s.data⟩

/-! ### Configuration and routing -/

/-- The configuration actually consumed by the generation pipeline: output
directory, aggregate output file name, and the `--uuid` flag. -/
structure Config where
  outputDirectory : String
  outputFile : String
  useUuid : Bool
deriving DecidableEq, Repr

/-- `output_file.replace(".rs", "")` as computed in `main.rs` (lines 230
and 367). -/
def outputFileName (cfg : Config) : String := replaceAll cfg.outputFile ".rs" ""

/-- Destination path of a routed file:
`{output_directory}/{output_file_name}/{file}.rs` (lines 231 and 368). -/
def routedPath (cfg : Config) (file : String) : String :=
  cfg.outputDirectory ++ "/" ++ outputFileName cfg ++ "/" ++ file ++ ".rs"

/-- Path of the aggregate output file, `{output_directory}/{output_file}`
(line 409). -/
def aggregatePath (cfg : Config) : String :=
  cfg.outputDirectory ++ "/" ++ cfg.outputFile

/-- Module path registered for a routed file (`main.rs` lines 396-400):
strip `.rs`, turn `/` into `::`, then strip the leading output-directory
and output-file-name segments. -/
def moduleName (cfg : Config) (file : String) : String :=
  replaceAll
    (replaceAll
      (replaceAll (replaceAll (routedPath cfg file) ".rs" "") "/" "::")
      (cfg.outputDirectory ++ "::") "")
    (outputFileName cfg ++ "::") ""

/-- Route lookup for one table (`main.rs` lines 362-364): the key is the
struct name (Pascal-cased table name) converted back to snake case, not the
raw introspected name. -/
def routeMatch (routes : List (String × String)) (t : Table) : Option String :=
  match structName t with
  | some sn => List.lookup (toSnake sn) routes
  | none => none

/-- Upfront deletion loop over the configured route mappings (`main.rs`
lines 226-235): for every mapping, delete its destination file if it
exists.  Runs before the database connection is even opened. -/
def resetGo (cfg : Config) : List (String × String) → FS → FS
  | [], fs => fs
  | e :: rest, fs =>
    let p := routedPath cfg e.2
    resetGo cfg rest (if (List.lookup p fs).isSome then fsDelete fs p else fs)

/-- The reset phase (`main.rs` lines 224-236), guarded by the mapping list
being non-empty as in the source. -/
def resetPhase (cfg : Config) (routes : List (String × String)) (fs : FS) : FS :=
  if routes.length > 0 then resetGo cfg routes fs else fs

/-! ### The per-table generation loop -/

/-- Accumulated run state: the file system plus the `module_defs`,
`output_file_contents` and `file_list` vectors of `main.rs`. -/
structure GenState where
  fs : FS
  moduleDefs : List String
  inlineDefs : List String
  fileList : List String
deriving DecidableEq, Repr

/-- Initial state of a run over a given file system. -/
def initState (fs : FS) : GenState :=
  { fs := fs, moduleDefs := [], inlineDefs := [], fileList := [] }

/-- Processing of one table (`main.rs` lines 266-406): emit its struct;
if a route matches, create the destination file when missing, append the
definition plus newline, record the file for formatting and push a module
declaration; otherwise push the definition onto the aggregate's inline
list.  `none` models a panic in identifier construction. -/
def processTable (cfg : Config) (routes : List (String × String))
    (st : GenState) (t : Table) : Option GenState :=
  match emitStruct cfg.useUuid t with
  | none => none
  | some structDef =>
    match routeMatch routes t with
    | some f =>
      let p := routedPath cfg f
      let fs1 := if (List.lookup p st.fs).isSome then st.fs else fsWrite st.fs p ""
      let fs2 := fsWrite fs1 p ((List.lookup p fs1).getD "" ++ (structDef ++ "\n"))
      some { fs := fs2,
             moduleDefs := st.moduleDefs ++ ["pub mod " ++ moduleName cfg f ++ ";"],
             inlineDefs := st.inlineDefs,
             fileList := st.fileList ++ [p] }
    | none =>
      some { st with inlineDefs := st.inlineDefs ++ [structDef] }

/-- The table loop: process tables in introspection order, aborting on the
first panic. -/
def processPhase (cfg : Config) (routes : List (String × String)) :
    List Table → GenState → Option GenState
  | [], st => some st
  | t :: ts, st =>
    match processTable cfg routes st t with
    | some st' => processPhase cfg routes ts st'
    | none => none

/-! ### Aggregate file, post-processing and the whole run -/

/-- Contents of the aggregate output file (`main.rs` lines 412-426):
fixed banner, timestamp line, one line per entry of `module_defs`, then
one line per inline record. -/
def aggregateContents (timestamp : String) (st : GenState) : String :=
  "// This file was generated by rustgres-schema\n" ++
  "// Do not edit this file directly\n" ++
  "// Generated on " ++ timestamp ++ "\n" ++
  String.join (st.moduleDefs.map (fun m => m ++ "\n")) ++
  String.join (st.inlineDefs.map (fun l => l ++ "\n"))

/-- `File::create` of the aggregate file followed by the writes: the file
is truncated and rewritten wholesale. -/
def writeAggregate (cfg : Config) (timestamp : String) (st : GenState) : GenState :=
  { st with fs := fsWrite st.fs (aggregatePath cfg) (aggregateContents timestamp st) }

/-- Whitespace normalisation around `::` followed by the external
formatter, as applied to each file of `file_list` (`main.rs` lines
432-449).  `fmt` models `rustfmt` as a total contents transformer. -/
def formatPass (fmt : String → String) (c : String) : String :=
  fmt (replaceAll c " :: " "::")

/-- The post-processing loop over `file_list`: files are looked up (the
loop skips paths that do not exist), rewritten with the whitespace fix and
then formatted. -/
def postProcess (fmt : String → String) : List String → FS → FS
  | [], fs => fs
  | p :: rest, fs =>
    match List.lookup p fs with
    | some c => postProcess fmt rest (fsWrite fs p (formatPass fmt c))
    | none => postProcess fmt rest fs

/-- One whole run of the generator over a starting file system: reset the
configured route files, process every table, write the aggregate file,
post-process the routed files.  `none` models an aborting panic. -/
def runPipeline (cfg : Config) (routes : List (String × String))
    (tables : List Table) (timestamp : String) (fmt : String → String)
    (fs : FS) : Option FS :=
  match processPhase cfg routes tables (initState (resetPhase cfg routes fs)) with
  | some st =>
    let st1 := writeAggregate cfg timestamp st
    some (postProcess fmt st1.fileList st1.fs)
  | none => none

/-- The introspection query (`main.rs` line 257): a fixed string — it always
restricts to `BASE TABLE` regardless of any flag. -/
def tablesQuery : String :=
  "SELECT table_name FROM information_schema.tables WHERE table_schema = $1 AND table_type = 'BASE TABLE'"

/-- The tool as invoked: `main` additionally reads the `--include-views`
flag into `_include_views` (`main.rs` line 197) and never consults it, so
the run is `runPipeline` with the flag discarded. -/
def runTool (cfg : Config) (_includeViews : Bool)
    (routes : List (String × String)) (tables : List Table)
    (timestamp : String) (fmt : String → String) (fs : FS) : Option FS :=
  runPipeline cfg routes tables timestamp fmt fs

/-! ### Derived per-table descriptions used by the theorems -/

/-- Destination path of a table, when a route matches. -/
def destOf (cfg : Config) (routes : List (String × String)) (t : Table) :
    Option String :=
  (routeMatch routes t).map (routedPath cfg)

/-- Module-declaration line contributed by a table, when a route matches. -/
def moduleLineOf (cfg : Config) (routes : List (String × String)) (t : Table) :
    Option String :=
  (routeMatch routes t).map (fun f => "pub mod " ++ moduleName cfg f ++ ";")

/-- Inline contribution of a table: its record, when no route matches. -/
def inlineDefOf (useUuid : Bool) (routes : List (String × String)) (t : Table) :
    Option String :=
  match routeMatch routes t with
  | some _ => none
  | none => emitStruct useUuid t

/-- Chunk a table appends to file `q`: its record plus newline, when its
route resolves to `q`. -/
def routedDefOf (cfg : Config) (routes : List (String × String)) (q : String)
    (t : Table) : Option String :=
  match routeMatch routes t, emitStruct cfg.useUuid t with
  | some f, some d => if routedPath cfg f = q then some (d ++ "\n") else none
  | _, _ => none

/-- Sequential append of definition chunks onto an optional file contents:
an absent file is created empty first, mirroring the routed-write path. -/
def applyDefs (c : Option String) (ds : List String) : Option String :=
  ds.foldl (fun acc d => some (acc.getD "" ++ d)) c

/-! ### File-system lemmas -/

theorem lookup_cons (q a b : String) (l : List (String × String)) :
    List.lookup q ((a, b) :: l) = if q = a then some b else List.lookup q l := by
  by_cases h : q = a
  · subst h; simp [List.lookup]
  · simp [List.lookup, beq_eq_false_iff_ne.mpr h, h]

theorem lookup_fsDelete (fs : FS) (p q : String) :
    List.lookup q (fsDelete fs p) = if q = p then none else List.lookup q fs := by
  induction fs with
  | nil => simp [fsDelete]
  | cons e rest ih =>
    obtain ⟨a, b⟩ := e
    rw [fsDelete, List.filter_cons]
    by_cases h1 : a = p
    · have hcond : ((a, b).1 != p) = false := by simp [h1]
      rw [hcond]
      simp only [Bool.false_eq_true, if_false]
      rw [show rest.filter (fun e => e.1 != p) = fsDelete rest p from rfl, ih,
        lookup_cons]
      by_cases h2 : q = p <;> simp [h1, h2, h1 ▸ h2]
    · have hcond : ((a, b).1 != p) = true := by simp [h1]
      rw [hcond]
      simp only [if_true]
      rw [lookup_cons,
        show rest.filter (fun e => e.1 != p) = fsDelete rest p from rfl, ih,
        lookup_cons]
      by_cases h2 : q = a
      · subst h2; simp [h1]
      · simp [h2]

theorem lookup_fsWrite (fs : FS) (p c q : String) :
    List.lookup q (fsWrite fs p c) = if q = p then some c else List.lookup q fs := by
  rw [fsWrite, lookup_cons, lookup_fsDelete]
  by_cases h : q = p <;> simp [h]

theorem applyDefs_nil (c : Option String) : applyDefs c [] = c := rfl

theorem applyDefs_cons (c : Option String) (d : String) (ds : List String) :
    applyDefs c (d :: ds) = applyDefs (some (c.getD "" ++ d)) ds := rfl

theorem applyDefs_some (a : String) (ds : List String) :
    applyDefs (some a) ds = some (ds.foldl (fun x y => x ++ y) a) := by
  induction ds generalizing a with
  | nil => rfl
  | cons d ds ih => simp [applyDefs_cons, ih]

theorem applyDefs_none (ds : List String) :
    applyDefs none ds = if ds.isEmpty then none else some (String.join ds) := by
  cases ds with
  | nil => rfl
  | cons d rest => simp [applyDefs_cons, applyDefs_some, String.join]

/-! ### The reset phase deletes every configured route path -/

theorem resetGo_lookup (cfg : Config) (routes : List (String × String))
    (fs : FS) (q : String) :
    List.lookup q (resetGo cfg routes fs) =
      if q ∈ routes.map (fun e => routedPath cfg e.2) then none
      else List.lookup q fs := by
  induction routes generalizing fs with
  | nil => simp [resetGo]
  | cons e rest ih =>
    have hstep :
        List.lookup q
            (if (List.lookup (routedPath cfg e.2) fs).isSome then
              fsDelete fs (routedPath cfg e.2) else fs) =
          if q = routedPath cfg e.2 then none else List.lookup q fs := by
      by_cases hs : (List.lookup (routedPath cfg e.2) fs).isSome
      · simp [hs, lookup_fsDelete]
      · rw [if_neg hs]
        by_cases hq : q = routedPath cfg e.2
        · subst hq
          simpa [Option.isSome_iff_exists] using
            Option.not_isSome_iff_eq_none.mp hs
        · simp [hq]
    rw [resetGo, ih, hstep]
    by_cases hq : q = routedPath cfg e.2 <;>
      by_cases hmem : q ∈ rest.map (fun e => routedPath cfg e.2) <;>
        simp [hq, hmem]

theorem resetPhase_lookup (cfg : Config) (routes : List (String × String))
    (fs : FS) (q : String) :
    List.lookup q (resetPhase cfg routes fs) =
      if q ∈ routes.map (fun e => routedPath cfg e.2) then none
      else List.lookup q fs := by
  rw [resetPhase]
  cases routes with
  | nil => simp
  | cons e rest => simp [resetGo_lookup]

theorem applyDefs_append (c : Option String) (xs ys : List String) :
    applyDefs c (xs ++ ys) = applyDefs (applyDefs c xs) ys := by
  simp [applyDefs, List.foldl_append]

theorem processTable_spec (cfg : Config) (routes : List (String × String))
    (s0 s1 : GenState) (t : Table)
    (h : processTable cfg routes s0 t = some s1) :
    s1.moduleDefs = s0.moduleDefs ++ (moduleLineOf cfg routes t).toList ∧
    s1.inlineDefs = s0.inlineDefs ++ (inlineDefOf cfg.useUuid routes t).toList ∧
    s1.fileList = s0.fileList ++ (destOf cfg routes t).toList ∧
    ∀ q, List.lookup q s1.fs =
      applyDefs (List.lookup q s0.fs) (routedDefOf cfg routes q t).toList := by
  cases hes : emitStruct cfg.useUuid t with
  | none => rw [processTable, hes] at h; cases h
  | some d =>
    cases hrm : routeMatch routes t with
    | some f =>
      rw [processTable, hes, hrm] at h
      injection h with h'
      subst h'
      refine ⟨by simp [moduleLineOf, hrm], by simp [inlineDefOf, hrm],
        by simp [destOf, hrm], ?_⟩
      intro q
      have hgetD :
          (List.lookup (routedPath cfg f)
            (if (List.lookup (routedPath cfg f) s0.fs).isSome then s0.fs
             else fsWrite s0.fs (routedPath cfg f) "")).getD "" =
          (List.lookup (routedPath cfg f) s0.fs).getD "" := by
        by_cases hs : (List.lookup (routedPath cfg f) s0.fs).isSome
        · rw [if_pos hs]
        · rw [if_neg hs, lookup_fsWrite, if_pos rfl,
            Option.not_isSome_iff_eq_none.mp hs]
          rfl
      show List.lookup q (fsWrite _ (routedPath cfg f) _) = _
      rw [lookup_fsWrite]
      by_cases hq : q = routedPath cfg f
      · subst hq
        rw [if_pos rfl, hgetD]
        simp [routedDefOf, hrm, hes, applyDefs_cons, applyDefs_nil]
      · rw [if_neg hq]
        have hfs1 : List.lookup q
            (if (List.lookup (routedPath cfg f) s0.fs).isSome then s0.fs
             else fsWrite s0.fs (routedPath cfg f) "") = List.lookup q s0.fs := by
          by_cases hs : (List.lookup (routedPath cfg f) s0.fs).isSome
          · rw [if_pos hs]
          · rw [if_neg hs, lookup_fsWrite, if_neg hq]
        rw [hfs1]
        have hne : ¬ routedPath cfg f = q := fun hh => hq hh.symm
        have : routedDefOf cfg routes q t = none := by
          simp only [routedDefOf, hrm, hes]
          rw [if_neg hne]
        rw [this]
        rfl
    | none =>
      rw [processTable, hes, hrm] at h
      injection h with h'
      subst h'
      refine ⟨by simp [moduleLineOf, hrm], by simp [inlineDefOf, hrm, hes],
        by simp [destOf, hrm], ?_⟩
      intro q
      have : routedDefOf cfg routes q t = none := by simp [routedDefOf, hrm]
      rw [this]
      rfl

theorem processPhase_spec (cfg : Config) (routes : List (String × String))
    (tables : List Table) :
    ∀ (s0 s1 : GenState), processPhase cfg routes tables s0 = some s1 →
      s1.moduleDefs = s0.moduleDefs ++ tables.filterMap (moduleLineOf cfg routes) ∧
      s1.inlineDefs = s0.inlineDefs ++ tables.filterMap (inlineDefOf cfg.useUuid routes) ∧
      s1.fileList = s0.fileList ++ tables.filterMap (destOf cfg routes) ∧
      ∀ q, List.lookup q s1.fs =
        applyDefs (List.lookup q s0.fs) (tables.filterMap (routedDefOf cfg routes q)) := by
  induction tables with
  | nil =>
    intro s0 s1 h
    rw [processPhase] at h
    injection h with h'
    subst h'
    simp [applyDefs_nil]
  | cons t ts ih =>
    intro s0 s1 h
    rw [processPhase] at h
    cases hpt : processTable cfg routes s0 t with
    | none => rw [hpt] at h; cases h
    | some s' =>
      rw [hpt] at h
      obtain ⟨m1, i1, f1, l1⟩ := processTable_spec cfg routes s0 s' t hpt
      obtain ⟨m2, i2, f2, l2⟩ := ih s' s1 h
      have hcat : ∀ (g : Table → Option String),
          (t :: ts).filterMap g = (g t).toList ++ ts.filterMap g := by
        intro g
        rw [List.filterMap_cons]
        cases g t <;> simp
      refine ⟨?_, ?_, ?_, ?_⟩
      · rw [m2, m1, hcat, List.append_assoc]
      · rw [i2, i1, hcat, List.append_assoc]
      · rw [f2, f1, hcat, List.append_assoc]
      · intro q
        rw [l2 q, l1 q, hcat, applyDefs_append]

/-! ### Post-processing and whole-run lemmas -/

theorem postProcess_lookup_congr (fmt : String → String) (files : List String) :
    ∀ (fs fs' : FS) (q : String),
      List.lookup q fs = List.lookup q fs' →
      List.lookup q (postProcess fmt files fs) =
        List.lookup q (postProcess fmt files fs') := by
  induction files with
  | nil => intro fs fs' q h; simpa [postProcess] using h
  | cons p rest ih =>
    intro fs fs' q h
    rw [postProcess, postProcess]
    cases hc : List.lookup p fs with
    | some c =>
      cases hc' : List.lookup p fs' with
      | some c' =>
        apply ih
        rw [lookup_fsWrite, lookup_fsWrite]
        by_cases hq : q = p
        · subst hq
          rw [hc, hc'] at h
          injection h with h
          rw [if_pos rfl, if_pos rfl, h]
        · rw [if_neg hq, if_neg hq]; exact h
      | none =>
        apply ih
        rw [lookup_fsWrite]
        by_cases hq : q = p
        · subst hq; rw [hc, hc'] at h; cases h
        · rw [if_neg hq]; exact h
    | none =>
      cases hc' : List.lookup p fs' with
      | some c' =>
        apply ih
        rw [lookup_fsWrite]
        by_cases hq : q = p
        · subst hq; rw [hc, hc'] at h; cases h
        · rw [if_neg hq]; exact h
      | none => exact ih fs fs' q h

theorem run_lookup_indep (cfg : Config) (routes : List (String × String))
    (tables : List Table) (ts : String) (fmt : String → String)
    (fs fs' g g' : FS) (q : String)
    (hq : q ∈ routes.map (fun e => routedPath cfg e.2))
    (h : runPipeline cfg routes tables ts fmt fs = some g)
    (h' : runPipeline cfg routes tables ts fmt fs' = some g') :
    List.lookup q g = List.lookup q g' := by
  unfold runPipeline at h h'
  cases hp : processPhase cfg routes tables (initState (resetPhase cfg routes fs)) with
  | none => rw [hp] at h; cases h
  | some st =>
    rw [hp] at h
    cases hp' : processPhase cfg routes tables (initState (resetPhase cfg routes fs')) with
    | none => rw [hp'] at h'; cases h'
    | some st' =>
      rw [hp'] at h'
      have hg : some (postProcess fmt (writeAggregate cfg ts st).fileList
          (writeAggregate cfg ts st).fs) = some g := h
      have hg' : some (postProcess fmt (writeAggregate cfg ts st').fileList
          (writeAggregate cfg ts st').fs) = some g' := h'
      injection hg with hg
      injection hg' with hg'
      subst hg; subst hg'
      obtain ⟨m1, i1, f1, l1⟩ := processPhase_spec _ _ _ _ _ hp
      obtain ⟨m2, i2, f2, l2⟩ := processPhase_spec _ _ _ _ _ hp'
      have hmod : st.moduleDefs = st'.moduleDefs := by
        rw [m1, m2]; simp [initState]
      have hinl : st.inlineDefs = st'.inlineDefs := by
        rw [i1, i2]; simp [initState]
      have hfl : st.fileList = st'.fileList := by
        rw [f1, f2]; simp [initState]
      have hfsq : ∀ r, r ∈ routes.map (fun e => routedPath cfg e.2) →
          List.lookup r st.fs = List.lookup r st'.fs := by
        intro r hr
        rw [l1 r, l2 r]
        have e1 : (initState (resetPhase cfg routes fs)).fs =
            resetPhase cfg routes fs := rfl
        have e2 : (initState (resetPhase cfg routes fs')).fs =
            resetPhase cfg routes fs' := rfl
        rw [e1, e2, resetPhase_lookup, resetPhase_lookup, if_pos hr, if_pos hr]
      have hagg : aggregateContents ts st = aggregateContents ts st' := by
        rw [aggregateContents, aggregateContents, hmod, hinl]
      have hfla : (writeAggregate cfg ts st).fileList = st.fileList := rfl
      have hfla' : (writeAggregate cfg ts st').fileList = st'.fileList := rfl
      rw [hfla, hfla', hfl]
      apply postProcess_lookup_congr
      have hwa : (writeAggregate cfg ts st).fs =
          fsWrite st.fs (aggregatePath cfg) (aggregateContents ts st) := rfl
      have hwa' : (writeAggregate cfg ts st').fs =
          fsWrite st'.fs (aggregatePath cfg) (aggregateContents ts st') := rfl
      rw [hwa, hwa', lookup_fsWrite, lookup_fsWrite, hagg]
      by_cases hqa : q = aggregatePath cfg
      · rw [if_pos hqa, if_pos hqa]
      · rw [if_neg hqa, if_neg hqa]
        exact hfsq q hq

theorem filter_length_partition {α : Type} (p : α → Bool) (l : List α) :
    (l.filter p).length + (l.filter (fun a => !(p a))).length = l.length := by
  induction l with
  | nil => rfl
  | cons a l ih =>
    cases h : p a <;> simp [List.filter_cons, h] <;> omega


/-! ### Case chains over the type-mapper conditions -/

/-- The base mapping never produces an `Option`-wrapped type, whatever the
type name and toggle: every arm of the `match` yields a bare type. -/
theorem isOpt_rustType (dt : String) (u : Bool) :
    isOpt (rustType dt u) = false := by
  rw [rustType]
  by_cases h1 : dt = "bigint"
  · rw [if_pos h1]; rfl
  rw [if_neg h1]
  by_cases h2 : dt = "bigserial"
  · rw [if_pos h2]; rfl
  rw [if_neg h2]
  by_cases h3 : dt = "bit"
  · rw [if_pos h3]; rfl
  rw [if_neg h3]
  by_cases h4 : dt = "bit varying"
  · rw [if_pos h4]; rfl
  rw [if_neg h4]
  by_cases h5 : dt = "boolean"
  · rw [if_pos h5]; rfl
  rw [if_neg h5]
  by_cases h6 : dt = "box"
  · rw [if_pos h6]; rfl
  rw [if_neg h6]
  by_cases h7 : dt = "bytea"
  · rw [if_pos h7]; rfl
  rw [if_neg h7]
  by_cases h8 : dt = "character"
  · rw [if_pos h8]; rfl
  rw [if_neg h8]
  by_cases h9 : dt = "character varying"
  · rw [if_pos h9]; rfl
  rw [if_neg h9]
  by_cases h10 : dt = "cidr"
  · rw [if_pos h10]; rfl
  rw [if_neg h10]
  by_cases h11 : dt = "circle"
  · rw [if_pos h11]; rfl
  rw [if_neg h11]
  by_cases h12 : dt = "date"
  · rw [if_pos h12]; rfl
  rw [if_neg h12]
  by_cases h13 : dt = "double precision"
  · rw [if_pos h13]; rfl
  rw [if_neg h13]
  by_cases h14 : dt = "inet"
  · rw [if_pos h14]; rfl
  rw [if_neg h14]
  by_cases h15 : dt = "integer"
  · rw [if_pos h15]; rfl
  rw [if_neg h15]
  by_cases h16 : dt = "interval"
  · rw [if_pos h16]; rfl
  rw [if_neg h16]
  by_cases h17 : dt = "json"
  · rw [if_pos h17]; rfl
  rw [if_neg h17]
  by_cases h18 : dt = "jsonb"
  · rw [if_pos h18]; rfl
  rw [if_neg h18]
  by_cases h19 : dt = "line"
  · rw [if_pos h19]; rfl
  rw [if_neg h19]
  by_cases h20 : dt = "lseg"
  · rw [if_pos h20]; rfl
  rw [if_neg h20]
  by_cases h21 : dt = "macaddr"
  · rw [if_pos h21]; rfl
  rw [if_neg h21]
  by_cases h22 : dt = "money"
  · rw [if_pos h22]; rfl
  rw [if_neg h22]
  by_cases h23 : dt = "numeric"
  · rw [if_pos h23]; rfl
  rw [if_neg h23]
  by_cases h24 : dt = "path"
  · rw [if_pos h24]; rfl
  rw [if_neg h24]
  by_cases h25 : dt = "pg_lsn"
  · rw [if_pos h25]; rfl
  rw [if_neg h25]
  by_cases h26 : dt = "point"
  · rw [if_pos h26]; rfl
  rw [if_neg h26]
  by_cases h27 : dt = "polygon"
  · rw [if_pos h27]; rfl
  rw [if_neg h27]
  by_cases h28 : dt = "real"
  · rw [if_pos h28]; rfl
  rw [if_neg h28]
  by_cases h29 : dt = "smallint"
  · rw [if_pos h29]; rfl
  rw [if_neg h29]
  by_cases h30 : dt = "smallserial"
  · rw [if_pos h30]; rfl
  rw [if_neg h30]
  by_cases h31 : dt = "serial"
  · rw [if_pos h31]; rfl
  rw [if_neg h31]
  by_cases h32 : dt = "text"
  · rw [if_pos h32]; rfl
  rw [if_neg h32]
  by_cases h33 : dt = "timestampz"
  · rw [if_pos h33]; rfl
  rw [if_neg h33]
  by_cases h34 : dt = "uuid"
  · rw [if_pos h34]; cases u <;> rfl
  rw [if_neg h34]; rfl

/-- The toggle only matters in the `uuid` arm: every other arm, and the
fallback, yields the same type for both toggle values. -/
theorem rustType_toggle_indep (dt : String) (h : dt ≠ "uuid") :
    rustType dt true = rustType dt false := by
  rw [rustType, rustType]
  by_cases h1 : dt = "bigint"
  · rw [if_pos h1, if_pos h1]
  rw [if_neg h1, if_neg h1]
  by_cases h2 : dt = "bigserial"
  · rw [if_pos h2, if_pos h2]
  rw [if_neg h2, if_neg h2]
  by_cases h3 : dt = "bit"
  · rw [if_pos h3, if_pos h3]
  rw [if_neg h3, if_neg h3]
  by_cases h4 : dt = "bit varying"
  · rw [if_pos h4, if_pos h4]
  rw [if_neg h4, if_neg h4]
  by_cases h5 : dt = "boolean"
  · rw [if_pos h5, if_pos h5]
  rw [if_neg h5, if_neg h5]
  by_cases h6 : dt = "box"
  · rw [if_pos h6, if_pos h6]
  rw [if_neg h6, if_neg h6]
  by_cases h7 : dt = "bytea"
  · rw [if_pos h7, if_pos h7]
  rw [if_neg h7, if_neg h7]
  by_cases h8 : dt = "character"
  · rw [if_pos h8, if_pos h8]
  rw [if_neg h8, if_neg h8]
  by_cases h9 : dt = "character varying"
  · rw [if_pos h9, if_pos h9]
  rw [if_neg h9, if_neg h9]
  by_cases h10 : dt = "cidr"
  · rw [if_pos h10, if_pos h10]
  rw [if_neg h10, if_neg h10]
  by_cases h11 : dt = "circle"
  · rw [if_pos h11, if_pos h11]
  rw [if_neg h11, if_neg h11]
  by_cases h12 : dt = "date"
  · rw [if_pos h12, if_pos h12]
  rw [if_neg h12, if_neg h12]
  by_cases h13 : dt = "double precision"
  · rw [if_pos h13, if_pos h13]
  rw [if_neg h13, if_neg h13]
  by_cases h14 : dt = "inet"
  · rw [if_pos h14, if_pos h14]
  rw [if_neg h14, if_neg h14]
  by_cases h15 : dt = "integer"
  · rw [if_pos h15, if_pos h15]
  rw [if_neg h15, if_neg h15]
  by_cases h16 : dt = "interval"
  · rw [if_pos h16, if_pos h16]
  rw [if_neg h16, if_neg h16]
  by_cases h17 : dt = "json"
  · rw [if_pos h17, if_pos h17]
  rw [if_neg h17, if_neg h17]
  by_cases h18 : dt = "jsonb"
  · rw [if_pos h18, if_pos h18]
  rw [if_neg h18, if_neg h18]
  by_cases h19 : dt = "line"
  · rw [if_pos h19, if_pos h19]
  rw [if_neg h19, if_neg h19]
  by_cases h20 : dt = "lseg"
  · rw [if_pos h20, if_pos h20]
  rw [if_neg h20, if_neg h20]
  by_cases h21 : dt = "macaddr"
  · rw [if_pos h21, if_pos h21]
  rw [if_neg h21, if_neg h21]
  by_cases h22 : dt = "money"
  · rw [if_pos h22, if_pos h22]
  rw [if_neg h22, if_neg h22]
  by_cases h23 : dt = "numeric"
  · rw [if_pos h23, if_pos h23]
  rw [if_neg h23, if_neg h23]
  by_cases h24 : dt = "path"
  · rw [if_pos h24, if_pos h24]
  rw [if_neg h24, if_neg h24]
  by_cases h25 : dt = "pg_lsn"
  · rw [if_pos h25, if_pos h25]
  rw [if_neg h25, if_neg h25]
  by_cases h26 : dt = "point"
  · rw [if_pos h26, if_pos h26]
  rw [if_neg h26, if_neg h26]
  by_cases h27 : dt = "polygon"
  · rw [if_pos h27, if_pos h27]
  rw [if_neg h27, if_neg h27]
  by_cases h28 : dt = "real"
  · rw [if_pos h28, if_pos h28]
  rw [if_neg h28, if_neg h28]
  by_cases h29 : dt = "smallint"
  · rw [if_pos h29, if_pos h29]
  rw [if_neg h29, if_neg h29]
  by_cases h30 : dt = "smallserial"
  · rw [if_pos h30, if_pos h30]
  rw [if_neg h30, if_neg h30]
  by_cases h31 : dt = "serial"
  · rw [if_pos h31, if_pos h31]
  rw [if_neg h31, if_neg h31]
  by_cases h32 : dt = "text"
  · rw [if_pos h32, if_pos h32]
  rw [if_neg h32, if_neg h32]
  by_cases h33 : dt = "timestampz"
  · rw [if_pos h33, if_pos h33]
  rw [if_neg h33, if_neg h33]
  rw [if_neg h, if_neg h]

/-! ### Claim theorems -/

/-- C1: the type mapper is total — it is a Lean function, hence defined on
every database type name — and every type name without an explicit arm in
the `match` falls through to the textual fallback `String`, for any value
of the UUID toggle. -/
theorem typeMapper_total_fallback (dt : String) (u : Bool)
    (h : dt ∉ explicitDbTypes) : rustType dt u = RustType.string := by
  have hne : ∀ s, s ∈ explicitDbTypes → dt ≠ s :=
    fun s hs e => h (by rw [e]; exact hs)
  rw [rustType]
  repeat rw [if_neg (hne _ (by decide))]

theorem typeMapper_total_fallback_witness :
    "tsvector" ∉ explicitDbTypes ∧ rustType "tsvector" true = RustType.string :=
  ⟨by decide, typeMapper_total_fallback "tsvector" true (by decide)⟩

/-- C2: a column whose `is_nullable` answer is `"YES"` gets the
`Option`-wrapped form of the non-nullable mapping applied exactly once —
the base mapping never itself produces an `Option`, so no double wrapping
is possible — and any other `is_nullable` answer leaves the base mapping
unwrapped. -/
theorem nullability_wrap_once (dt nn : String) (u : Bool) :
    (nn = "YES" → fieldType dt nn u = RustType.option (rustType dt u)) ∧
    (nn ≠ "YES" → fieldType dt nn u = rustType dt u) ∧
    isOpt (rustType dt u) = false :=
  ⟨fun h => by rw [fieldType, if_pos h],
   fun h => by rw [fieldType, if_neg h],
   isOpt_rustType dt u⟩

theorem nullability_wrap_once_witness :
    fieldType "text" "YES" false = RustType.option (rustType "text" false) ∧
    fieldType "text" "NO" false = rustType "text" false :=
  ⟨(nullability_wrap_once "text" "YES" false).1 rfl,
   (nullability_wrap_once "text" "NO" false).2.1 (by decide)⟩

/-- C3: over a completed table loop started on the post-reset file system,
the aggregate's inline list holds exactly the records of the tables with no
matching route (in processing order), every configured routed path holds
exactly the concatenated records of the tables routed to it (in processing
order; absent when no table routes there), and the routed/unrouted tables
partition the introspected sequence — each table lands in exactly one
destination, none dropped, none duplicated. -/
theorem routing_partition (cfg : Config) (routes : List (String × String))
    (tables : List Table) (fs : FS) (st : GenState)
    (h : processPhase cfg routes tables
      (initState (resetPhase cfg routes fs)) = some st) :
    st.inlineDefs = tables.filterMap (inlineDefOf cfg.useUuid routes) ∧
    (∀ p, p ∈ routes.map (fun e => routedPath cfg e.2) →
      List.lookup p st.fs =
        (if (tables.filterMap (routedDefOf cfg routes p)).isEmpty then none
         else some (String.join (tables.filterMap (routedDefOf cfg routes p))))) ∧
    (tables.filter (fun t => (routeMatch routes t).isSome)).length +
      (tables.filter (fun t => !(routeMatch routes t).isSome)).length =
      tables.length := by
  obtain ⟨m, i, f, l⟩ := processPhase_spec _ _ _ _ _ h
  refine ⟨by simpa [initState] using i, ?_,
    filter_length_partition (fun t => (routeMatch routes t).isSome) tables⟩
  intro p hp
  have e1 : (initState (resetPhase cfg routes fs)).fs =
      resetPhase cfg routes fs := rfl
  rw [l p, e1, resetPhase_lookup, if_pos hp, applyDefs_none]

def cfg3 : Config := ⟨"src", "schema.rs", false⟩

def routes3 : List (String × String) := [("orders", "orders")]

def tables3 : List Table :=
  [⟨"users", [⟨"id", "serial", "NO"⟩, ⟨"email", "text", "NO"⟩,
     ⟨"bio", "text", "YES"⟩]⟩,
   ⟨"orders", [⟨"id", "serial", "NO"⟩]⟩]

set_option maxRecDepth 100000 in
set_option maxHeartbeats 1000000 in
theorem routing_partition_witness :
    (processPhase cfg3 routes3 tables3
        (initState (resetPhase cfg3 routes3 []))).map
        (fun st => (st.inlineDefs, List.lookup "src/schema/orders.rs" st.fs)) =
      some (tables3.filterMap (inlineDefOf cfg3.useUuid routes3),
        if (tables3.filterMap
            (routedDefOf cfg3 routes3 "src/schema/orders.rs")).isEmpty then none
        else some (String.join (tables3.filterMap
            (routedDefOf cfg3 routes3 "src/schema/orders.rs")))) := by
  cases hp : processPhase cfg3 routes3 tables3
      (initState (resetPhase cfg3 routes3 [])) with
  | none =>
    have hs : (processPhase cfg3 routes3 tables3
        (initState (resetPhase cfg3 routes3 []))).isSome = true := by decide
    rw [hp] at hs; cases hs
  | some st =>
    obtain ⟨hi, hl, _⟩ := routing_partition cfg3 routes3 tables3 [] st hp
    have hmap : (some st).map
        (fun st => (st.inlineDefs, List.lookup "src/schema/orders.rs" st.fs)) =
        some (st.inlineDefs, List.lookup "src/schema/orders.rs" st.fs) := rfl
    rw [hmap, hi, hl "src/schema/orders.rs" (by decide)]

/-- C4: running the pipeline a second time on the file system produced by a
first run — same configuration, same route table, same introspected tables,
same timestamp and formatter — leaves every routed file byte-identical:
the second run's reset deletes the routed destinations before rewriting
them deterministically. -/
theorem regeneration_idempotent (cfg : Config) (routes : List (String × String))
    (tables : List Table) (ts : String) (fmt : String → String)
    (fs fs1 fs2 : FS) (p : String)
    (h1 : runPipeline cfg routes tables ts fmt fs = some fs1)
    (h2 : runPipeline cfg routes tables ts fmt fs1 = some fs2)
    (hp : p ∈ routes.map (fun e => routedPath cfg e.2)) :
    List.lookup p fs2 = List.lookup p fs1 :=
  run_lookup_indep cfg routes tables ts fmt fs1 fs fs2 fs1 p hp h2 h1

def cfg4 : Config := ⟨"src", "schema.rs", false⟩

def routes4 : List (String × String) := [("orders", "orders")]

def tables4 : List Table := [⟨"orders", [⟨"id", "serial", "NO"⟩]⟩]

def run4 (fs : FS) : Option FS :=
  runPipeline cfg4 routes4 tables4 "2026-01-01" (fun s => s) fs

def run4a : FS := (run4 []).getD []

def run4b : FS := (run4 run4a).getD []

set_option maxRecDepth 100000 in
set_option maxHeartbeats 1000000 in
theorem regeneration_idempotent_witness :
    run4 [] = some run4a ∧ run4 run4a = some run4b ∧
    "src/schema/orders.rs" ∈ routes4.map (fun e => routedPath cfg4 e.2) ∧
    List.lookup "src/schema/orders.rs" run4b =
      List.lookup "src/schema/orders.rs" run4a := by
  have h1 : run4 [] = some run4a := by decide
  have h2 : run4 run4a = some run4b := by decide
  have hp : "src/schema/orders.rs" ∈
      routes4.map (fun e => routedPath cfg4 e.2) := by decide
  exact ⟨h1, h2, hp,
    regeneration_idempotent cfg4 routes4 tables4 "2026-01-01" (fun s => s)
      [] run4a run4b "src/schema/orders.rs" h1 h2 hp⟩

/-- C5 (amended): the aggregate file receives one module-declaration line
per routed table — one per route match, in table-processing order — not one
per distinct destination path; a destination receiving several tables
contributes one identical line per table. -/
theorem module_decls_per_routed_table (cfg : Config)
    (routes : List (String × String)) (tables : List Table) (fs : FS)
    (st : GenState)
    (h : processPhase cfg routes tables (initState fs) = some st) :
    st.moduleDefs = tables.filterMap (moduleLineOf cfg routes) := by
  obtain ⟨m, _, _, _⟩ := processPhase_spec _ _ _ _ _ h
  simpa [initState] using m

def cfg5 : Config := ⟨"src", "schema.rs", false⟩

def routes5 : List (String × String) := [("users", "shared"), ("posts", "shared")]

def tables5 : List Table := [⟨"users", []⟩, ⟨"posts", []⟩]

set_option maxRecDepth 100000 in
set_option maxHeartbeats 1000000 in
/-- C5 counterexample: two tables routed to the same destination file yield
two identical `pub mod shared;` lines, although only one distinct
destination path is ever touched — refuting "exactly one module-declaration
line per distinct destination path". -/
theorem module_decls_duplicate_counterexample :
    (processPhase cfg5 routes5 tables5 (initState [])).map GenState.moduleDefs =
      some ["pub mod shared;", "pub mod shared;"] ∧
    tables5.filterMap (destOf cfg5 routes5) =
      ["src/schema/shared.rs", "src/schema/shared.rs"] := by
  constructor <;> decide

set_option maxRecDepth 100000 in
set_option maxHeartbeats 1000000 in
theorem module_decls_per_routed_table_witness :
    (processPhase cfg5 routes5 tables5 (initState [])).map GenState.moduleDefs =
      some (tables5.filterMap (moduleLineOf cfg5 routes5)) := by
  cases hp : processPhase cfg5 routes5 tables5 (initState []) with
  | none =>
    have hs : (processPhase cfg5 routes5 tables5 (initState [])).isSome = true := by
      decide
    rw [hp] at hs; cases hs
  | some st =>
    have hm := module_decls_per_routed_table cfg5 routes5 tables5 [] st hp
    have hmap : (some st).map GenState.moduleDefs = some st.moduleDefs := rfl
    rw [hmap, hm]

/-- C6: route lookup is keyed by the regenerated identifier — the table
name Pascal-cased and converted back to snake case — and consequently, for
a route table keyed by a table's raw name, the route matches exactly when
that casing round trip is the identity on the name.  The hypothesis states
that building the struct-name `Ident` succeeds (otherwise the run panics
before routing). -/
theorem route_lookup_roundtrip_key (name file : String) (cols : List Column)
    (routes : List (String × String))
    (h : mkIdent (toPascal name) = some (toPascal name)) :
    routeMatch routes ⟨name, cols⟩ =
      List.lookup (toSnake (toPascal name)) routes ∧
    ((routeMatch [(name, file)] ⟨name, cols⟩).isSome ↔
      toSnake (toPascal name) = name) := by
  have hs : structName ⟨name, cols⟩ = some (toPascal name) := h
  have hkey : ∀ rs : List (String × String),
      routeMatch rs ⟨name, cols⟩ =
        List.lookup (toSnake (toPascal name)) rs := by
    intro rs
    rw [routeMatch, hs]
  refine ⟨hkey routes, ?_⟩
  rw [hkey [(name, file)], lookup_cons]
  by_cases he : toSnake (toPascal name) = name
  · simp [he]
  · simp [he]

theorem route_lookup_roundtrip_key_witness :
    routeMatch [("users", "orders")] ⟨"users", []⟩ =
      List.lookup (toSnake (toPascal "users")) [("users", "orders")] ∧
    ((routeMatch [("users", "orders")] ⟨"users", []⟩).isSome ↔
      toSnake (toPascal "users") = "users") :=
  route_lookup_roundtrip_key "users" "orders" [] [("users", "orders")] (by decide)

set_option maxRecDepth 100000 in
set_option maxHeartbeats 1000000 in
/-- C7 (amended): the name conversion performs no reserved-word
disambiguation and no digit escaping: every Rust keyword used as a column
name is emitted verbatim as the field identifier (still a reserved word),
and a name whose snake-case form starts with a digit makes identifier
construction panic instead of being escaped. -/
theorem ident_no_reserved_handling :
    (∀ w ∈ rustKeywords, colIdent w = some w) ∧ colIdent "2fa" = none := by
  constructor
  · decide
  · decide

/-- C7 counterexample: the column name `type` converts, without error, to
the identifier `type`, which is a Rust reserved word — refuting "a
syntactically valid identifier distinct from any reserved word". -/
theorem ident_reserved_counterexample :
    colIdent "type" = some "type" ∧ "type" ∈ rustKeywords := by
  constructor <;> decide

theorem ident_no_reserved_handling_witness : colIdent "type" = some "type" :=
  ident_no_reserved_handling.1 "type" (by decide)

/-- C8: the `uuid` column type resolves to the dedicated UUID type when the
toggle is on and to the textual type when it is off, and the mapping of
every other type name is unaffected by the toggle. -/
theorem uuid_toggle :
    rustType "uuid" true = RustType.uuid ∧
    rustType "uuid" false = RustType.string ∧
    ∀ dt, dt ≠ "uuid" → rustType dt true = rustType dt false :=
  ⟨by decide, by decide, fun dt h => rustType_toggle_indep dt h⟩

theorem uuid_toggle_witness : rustType "text" true = rustType "text" false :=
  uuid_toggle.2.2 "text" (by decide)

/-- C9: the include-views flag is read but never consulted: two tool
invocations differing only in that flag produce identical results on every
generated artifact (the run function does not depend on it, and the
introspection query `tablesQuery` is a fixed string restricting to base
tables). -/
theorem include_views_inert (cfg : Config) (b1 b2 : Bool)
    (routes : List (String × String)) (tables : List Table)
    (ts : String) (fmt : String → String) (fs : FS) :
    runTool cfg b1 routes tables ts fmt fs =
      runTool cfg b2 routes tables ts fmt fs := rfl

/-- C10 (amended): routed-file resets happen upfront for every configured
route, before the database connection is opened and before any table is
processed: each configured destination's pre-existing file is deleted at
run start, whether or not any table ends up routed to it. -/
theorem reset_upfront (cfg : Config) (routes : List (String × String))
    (fs : FS) (e : String × String) (he : e ∈ routes) :
    List.lookup (routedPath cfg e.2) (resetPhase cfg routes fs) = none := by
  rw [resetPhase_lookup, if_pos]
  exact List.mem_map_of_mem _ he

def cfgX : Config := ⟨"src", "schema.rs", false⟩

def routesX : List (String × String) := [("orders", "orders")]

def fsX : FS := [("src/schema/orders.rs", "stale")]

set_option maxRecDepth 100000 in
set_option maxHeartbeats 1000000 in
/-- C10 counterexample: with a configured route whose file exists from a
prior run and an introspection result containing no tables at all, a full
run still deletes the routed file — although no table is routed to it and
no write to it ever happens — refuting "deleted only at (or just before)
the first write for a table routed to it". -/
theorem reset_incremental_counterexample :
    (runPipeline cfgX routesX [] "T" (fun s => s) fsX).map
        (fun g => List.lookup "src/schema/orders.rs" g) = some none ∧
    ([] : List Table).filterMap (destOf cfgX routesX) = [] := by
  constructor
  · decide
  · rfl

theorem reset_upfront_witness :
    List.lookup (routedPath cfgX "orders") (resetPhase cfgX routesX fsX) = none :=
  reset_upfront cfgX routesX fsX ("orders", "orders") (by decide)
